import Mathlib

/-!
Shallow embedding of the PollToMVR discovery core:
`src/tui/rdm_search.py` (serial-gateway RDM discovery),
`src/tui/artnet.py` (Art-Net discovery) and
`src/tui/llrp.py` (LLRP discovery).

Bytes are modelled as natural numbers (with `< 256` hypotheses where
byte-ness matters), Python `bytes` values as `List ℕ`.  Python operations
that can raise an exception (`bytearray` construction with an out-of-range
value, `struct.pack`/`struct.unpack` on a wrong-sized argument, indexing
past the end) are modelled with `Option`, `none` standing for the raise.
`x & 0xFF` on a non-negative int is written `x % 256`, `x >> 8` is
`x / 256`, and `x & 0xFFFF` is written with `&&&`.
-/

namespace PollToMVR

/-! ### Constants (rdm_search.py lines 24-57, llrp.py lines 40-45) -/

def HEADER : ℕ := 0xA5
def PACKET_TYPE_RDM_RESPONSE : ℕ := 0x11
def PACKET_TYPE_RDM_PACKET_OUT : ℕ := 0x10
def PACKET_TYPE_RDM_DISCOVERY_UNIQUE_BRANCH : ℕ := 0x12
def PACKET_TYPE_RDM_DISCOVERY_RESPONSE : ℕ := 0x13

def RDM_START_CODE : ℕ := 0xCC
def RDM_SUB_START_CODE : ℕ := 0x01
def BROADCAST_ALL_DEVICES_ID : List ℕ := [0xFF, 0xFF, 0xFF, 0xFF, 0xFF, 0xFF]

/-- UID of the Robe Universal Interface itself, acting as the controller. -/
def CONTROLLER_UID : List ℕ := [0x52, 0x53, 0x02, 0x00, 0x00, 0x15]

def DISCOVERY_COMMAND : ℕ := 0x10
def DISC_UNIQUE_BRANCH : ℕ := 0x0001
def DISC_MUTE : ℕ := 0x0002
def DISC_UN_MUTE : ℕ := 0x0003

/-! ### Serial codec (rdm_search.py) -/

/-- rdm_search.py lines 71-73: `sum(data) & 0xFF` (1-byte sum of all bytes). -/
def calculate_byte_sum_crc (data : List ℕ) : ℕ := data.sum % 256

/-- rdm_search.py lines 103-105: `sum(data)`.  Note: the source returns the
plain sum with NO 16-bit truncation (unlike `_rdm_checksum` in llrp.py). -/
def calculate_rdm_checksum (data : List ℕ) : ℕ := data.sum

/-- llrp.py lines 56-57: `sum(data) & 0xFFFF`. -/
def _rdm_checksum (data : List ℕ) : ℕ := data.sum &&& 0xFFFF

/-- rdm_search.py lines 76-100 (`build_robe_packet`).  The argument `pad`
stands for the 4 random bytes `random.getrandbits(8) for _ in range(4)`
that the source appends for the two outgoing RDM packet types; it is taken
as a parameter so that the build is a pure function of its inputs. -/
def build_robe_packet (packet_type : ℕ) (rdm_packet pad : List ℕ) : List ℕ :=
  let data_to_wrap :=
    if packet_type = PACKET_TYPE_RDM_PACKET_OUT ∨
        packet_type = PACKET_TYPE_RDM_DISCOVERY_UNIQUE_BRANCH then
      rdm_packet ++ pad
    else rdm_packet
  let data_len := data_to_wrap.length
  -- `[HEADER, packet_type, data_len & 0xFF, (data_len >> 8) & 0xFF]`
  let header_part := [HEADER, packet_type, data_len % 256, data_len / 256 % 256]
  let packet := header_part ++ [calculate_byte_sum_crc header_part] ++ data_to_wrap
  packet ++ [calculate_byte_sum_crc packet]

/-- The 16-bit little-endian length field of a gateway envelope
(bytes 2 and 3 of the packet). -/
def robe_len_field (p : List ℕ) : ℕ := p.getD 2 0 + 256 * p.getD 3 0

/-- rdm_search.py lines 108-133 (`build_rdm_packet`).  `none` models the
exceptions the Python code can raise while assembling the message:
* `bytearray([RDM_START_CODE, RDM_SUB_START_CODE, message_length])` raises
  `ValueError` when `message_length = 24 + len(pd) > 255`;
* `extend([tn, 1, 0])` raises when `tn > 255`;
* `append(cc)` raises when `cc > 255`;
* `struct.pack(">H", pid)` raises when `pid > 0xFFFF`;
* `struct.pack(">H", checksum)` raises when the (untruncated) checksum
  exceeds `0xFFFF`.
There is no 255-byte check on `pd` itself in the source; `append(pdl)`
cannot fail because `pdl ≤ 231` follows from the `message_length` check. -/
def build_rdm_packet (dest_uid : List ℕ) (tn cc pid : ℕ) (pd : List ℕ) :
    Option (List ℕ) :=
  let pdl := pd.length
  let message_length := 24 + pdl
  if 255 < message_length then none
  else if 255 < tn then none
  else if 255 < cc then none
  else if 65535 < pid then none
  else
    let packet_for_checksum : List ℕ :=
      [RDM_START_CODE, RDM_SUB_START_CODE, message_length] ++ dest_uid ++
        CONTROLLER_UID ++ [tn, 1, 0] ++ [0x00, 0x00] ++ [cc] ++
        [pid / 256, pid % 256] ++ [pdl] ++ pd
    let checksum := calculate_rdm_checksum packet_for_checksum
    if 65535 < checksum then none
    else some (packet_for_checksum.drop 1 ++ [checksum / 256, checksum % 256])

/-! ### Serial response parsing (rdm_search.py lines 222-372) -/

/-- The fields that parse_rdm_response (rdm_search.py lines 271-328)
extracts from the core RDM response packet before dispatching on the
parameter id. -/
structure RdmFields where
  sub_start : ℕ
  msg_len : ℕ
  dest_uid : List ℕ
  src_uid : List ℕ
  tn : ℕ
  response_type : ℕ
  msg_count : ℕ
  sub_device : ℕ
  cc : ℕ
  pid : ℕ
  pdl : ℕ
  pd : List ℕ
  checksum : ℕ
  deriving Repr, DecidableEq

/-- The field extraction of parse_rdm_response (rdm_search.py lines
273-290).  The whole body is inside `try ... except`, so any failure
(empty input is returned early; an `IndexError` on `rdm_data[k]` or a
`struct.error` on a short slice when the buffer has fewer than 23 bytes)
yields the `(None, None)` result, modelled as `none`.  On a buffer of at
least 23 bytes every access succeeds. -/
def parse_rdm_fields (rdm_data : List ℕ) : Option RdmFields :=
  if rdm_data.length < 23 then none
  else
    some
      { sub_start := rdm_data.getD 0 0
        msg_len := rdm_data.getD 1 0
        dest_uid := (rdm_data.drop 2).take 6
        src_uid := (rdm_data.drop 8).take 6
        tn := rdm_data.getD 14 0
        response_type := rdm_data.getD 15 0
        msg_count := rdm_data.getD 16 0
        sub_device := 256 * rdm_data.getD 17 0 + rdm_data.getD 18 0
        cc := rdm_data.getD 19 0
        pid := 256 * rdm_data.getD 20 0 + rdm_data.getD 21 0
        pdl := rdm_data.getD 22 0
        pd := (rdm_data.drop 23).take (rdm_data.getD 22 0)
        checksum := 256 * rdm_data.getD (rdm_data.length - 2) 0 +
          rdm_data.getD (rdm_data.length - 1) 0 }

/-- rdm_search.py lines 222-268 (`parse_discovery_response`).  The body is
wrapped in `try ... except`, so the function is total: it returns the
AND-decoded UID when the `0xAA` separator is found and at least 16 bytes
follow it, and `None` otherwise.  The checksum comparison in the source
only prints a message and does not affect the returned value. -/
def parse_discovery_response (rdm_data : List ℕ) : Option (List ℕ) :=
  match rdm_data.findIdx? (fun b => b = 0xAA) with
  | none => none
  | some separator_index =>
    let euid_ecs_data := rdm_data.drop (separator_index + 1)
    if euid_ecs_data.length < 16 then none
    else
      let euid := euid_ecs_data.take 12
      some (List.ofFn fun i : Fin 6 =>
        euid.getD (2 * i.val) 0 &&& euid.getD (2 * i.val + 1) 0)

/-- The status component of the tuple returned by parse_robe_response
(rdm_search.py lines 331-372). -/
inductive RobeStatus where
  | error : RobeStatus
  | ack (pid : Option ℕ) : RobeStatus
  | no_response : RobeStatus
  | uid (u : List ℕ) : RobeStatus
  | collision (d : List ℕ) : RobeStatus
  | unhandled : RobeStatus
  deriving Repr, DecidableEq

/-- rdm_search.py lines 331-372 (`parse_robe_response`).  Unlike the two
RDM-level parsers, this function has NO surrounding `try ... except`:
* an empty response or a wrong first byte returns `("error", None)`;
* otherwise `response[1]` raises `IndexError` when the response has a
  single byte, and `struct.unpack("<H", response[2:4])` raises
  `struct.error` when it has 2 or 3 bytes — both escape the function,
  modelled as `none`;
* from 4 bytes on everything is total: the slices `response[5:-1]` and
  `[:-4]` never raise, `parse_rdm_response` catches all its exceptions
  internally (so the RDM-response branch always produces an "ack" status,
  carrying the parsed pid or `None`), and `parse_discovery_response` is
  likewise total. -/
def parse_robe_response (response : List ℕ) : Option RobeStatus :=
  if response.length = 0 ∨ response.getD 0 0 ≠ HEADER then some .error
  else if response.length < 4 then none
  else
    let packet_type := response.getD 1 0
    let data_len := response.getD 2 0 + 256 * response.getD 3 0
    let rdm_data_with_trailer := (response.drop 5).dropLast
    let rdm_data :=
      rdm_data_with_trailer.take (rdm_data_with_trailer.length - 4)
    if packet_type = PACKET_TYPE_RDM_RESPONSE then
      some (.ack ((parse_rdm_fields rdm_data).map RdmFields.pid))
    else if packet_type = PACKET_TYPE_RDM_DISCOVERY_RESPONSE then
      if data_len = 4 then some .no_response
      else
        match parse_discovery_response rdm_data with
        | some u => some (.uid u)
        | none => some (.collision rdm_data)
    else some .unhandled

/-! ### Bus model and binary-search discovery (rdm_search.py lines 398-518)

The bus is a finite set of device UIDs, given as a duplicate-free list of
naturals below `2^48`.  Per the bus model of the claim:
* a `DISC_UNIQUE_BRANCH` over `[lo, hi]` is answered by the unmuted bus
  devices in that range — none: no response; exactly one: that UID's clean
  reply; two or more: a collision signal;
* a direct `DISC_MUTE` of an existing UID is ACKed and silences it for
  later branch queries (the state component `muted`).

`binary_search_branch` recurses on the same range after a clean reply, so
its termination is a consequence of the bus model (the freshly muted
device stops answering), not of the code's syntactic structure; the
embedding therefore takes a fuel argument, `none` standing for fuel
exhaustion.  The transaction number `tn` is threaded exactly as in the
source (+1 per packet sent). -/

/-- The unmuted bus devices that answer a `DISC_UNIQUE_BRANCH` covering
`[lo, hi]`. -/
def respondersIn (bus muted : List ℕ) (lo hi : ℕ) : List ℕ :=
  bus.filter fun u => decide (lo ≤ u ∧ u ≤ hi ∧ u ∉ muted)

/-- rdm_search.py lines 398-477 (`binary_search_branch`), run against the
bus model.  State: transaction number, muted UIDs, discovered UIDs (in
discovery order).  Mirrors the source:
* `lower_bound > upper_bound`: return;
* `lower_bound == upper_bound`: direct mute check — an ACK (the UID exists
  on the bus) mutes the device and records it if new;
* otherwise broadcast the branch query: a clean single-UID reply records
  the UID if new, mutes it, and re-runs the same range; a collision splits
  at the midpoint; no response stops. -/
def binary_search_branch (bus : List ℕ) :
    ℕ → ℕ → ℕ → ℕ → List ℕ → List ℕ → Option (ℕ × List ℕ × List ℕ)
  | 0, _, _, _, _, _ => none
  | fuel + 1, tn, lower_bound, upper_bound, muted, discovered_uids =>
    if upper_bound < lower_bound then some (tn, muted, discovered_uids)
    else if lower_bound = upper_bound then
      -- Mute Check: ACK iff the UID exists; the mute silences it.
      if lower_bound ∈ bus then
        some (tn + 1, lower_bound :: muted,
          if lower_bound ∈ discovered_uids then discovered_uids
          else discovered_uids ++ [lower_bound])
      else some (tn + 1, muted, discovered_uids)
    else
      match respondersIn bus muted lower_bound upper_bound with
      | [] => some (tn + 1, muted, discovered_uids)
      | [u] =>
        if u ∈ discovered_uids then
          -- source re-runs the same range without muting
          binary_search_branch bus fuel (tn + 1) lower_bound upper_bound
            muted discovered_uids
        else
          -- record the device, mute it, search the same range again
          binary_search_branch bus fuel (tn + 2) lower_bound upper_bound
            (u :: muted) (discovered_uids ++ [u])
      | _ :: _ :: _ =>
        -- collision: split at the midpoint
        let mid_point := (lower_bound + upper_bound) / 2
        match binary_search_branch bus fuel (tn + 1) lower_bound mid_point
            muted discovered_uids with
        | none => none
        | some (tn1, m1, f1) =>
          binary_search_branch bus fuel tn1 (mid_point + 1) upper_bound m1 f1

/-- rdm_search.py lines 480-518 (`discover_all_devices`): broadcast
`DISC_UN_MUTE` (tn + 1; every device starts unmuted), run the binary
search over the full UID range, and broadcast a final `DISC_UN_MUTE`
(tn + 1) if anything was found.  Returns the discovered UIDs and the
final transaction number. -/
def discover_all_devices (bus : List ℕ) (tn fuel : ℕ) :
    Option (List ℕ × ℕ) :=
  match binary_search_branch bus fuel (tn + 1) 0 0xFFFFFFFFFFFF [] [] with
  | none => none
  | some (tn1, _, discovered_uids) =>
    some (discovered_uids, if discovered_uids = [] then tn1 else tn1 + 1)

/-! ### Serial open failure (rdm_search.py lines 604-610, screens.py
lines 235-257) -/

/-- How the serial environment behaves when `serial.Serial(device_name,
baudrate=250000, timeout=0.1)` is attempted for a device path: either the
port opens onto a bus of RDM devices, or the constructor raises
`serial.SerialException`. -/
inductive SerialEnv where
  | opens (bus : List ℕ) : SerialEnv
  | failsToOpen : SerialEnv

/-- rdm_search.py lines 604-610 (`get_port`): the `SerialException` is
caught and printed, and `ser` stays `None`. -/
def get_port : SerialEnv → Option (List ℕ)
  | .opens bus => some bus
  | .failsToOpen => none

/-- rdm_search.py lines 575-582 (`get_devices`) on the port returned by
`get_port`.  When the port is `None`, the first `ser.write(robe_packet)`
inside `send_and_receive` raises `AttributeError` ("'NoneType' object has
no attribute 'write'"); when the port is open, the discovery runs against
the bus.  `tn` starts at 0 as in the source. -/
def get_devices (port : Option (List ℕ)) (fuel : ℕ) :
    Except String (List ℕ × ℕ) :=
  match port with
  | none => .error "AttributeError: NoneType object has no attribute write"
  | some bus =>
    match discover_all_devices bus 0 fuel with
    | none => .error "fuel exhausted"
    | some (uids, tn) => .ok (uids, tn)

/-- The outcome the caller of the serial discovery run observes
(screens.py lines 235-257, `run_rdm_discovery`): either a posted device
list or a posted error message. -/
inductive RdmRunOutcome where
  | devices (uids : List ℕ) : RdmRunOutcome
  | failure (reason : String) : RdmRunOutcome
  deriving Repr, DecidableEq

/-- screens.py lines 235-257 (`run_rdm_discovery`): `port = get_port(...)`;
`get_devices(port)`; any exception is caught by the `except` block and
posted as `RdmDevicesDiscovered(error=str(e))`. -/
def run_rdm_discovery (env : SerialEnv) (fuel : ℕ) : RdmRunOutcome :=
  match get_devices (get_port env) fuel with
  | .error e => .failure e
  | .ok (uids, _) => .devices uids

/-! ### Shared byte-string helpers for the network parsers -/

/-- Python `bytes.decode("ascii", errors="ignore")`: non-ASCII bytes
(≥ 0x80) are dropped, the rest map to their characters.  Modelled on the
byte list. -/
def decode_ascii_ignore (l : List ℕ) : List ℕ := l.filter fun b => decide (b < 128)

/-- Python `str.strip("\x00")`: remove leading and trailing NULs. -/
def strip_nul (l : List ℕ) : List ℕ :=
  ((l.dropWhile fun b => decide (b = 0)).reverse.dropWhile
    fun b => decide (b = 0)).reverse

/-- Big-endian 32-bit value at offset `i` (Python
`struct.unpack(">I", data[i:i+4])[0]`, total here because every use in the
source is guarded by a length check). -/
def beAt32 (data : List ℕ) (i : ℕ) : ℕ :=
  ((data.getD i 0 * 256 + data.getD (i + 1) 0) * 256 +
    data.getD (i + 2) 0) * 256 + data.getD (i + 3) 0

/-! ### Art-Net discovery (artnet.py) -/

namespace ArtNetDiscovery

/-- The 8-byte Art-Net ID `b"Art-Net\x00"`. -/
def ARTNET_ID : List ℕ := [0x41, 0x72, 0x74, 0x2D, 0x4E, 0x65, 0x74, 0x00]

/-- artnet.py lines 83-88 (`_is_artpoll_reply`): length at least 10, the
Art-Net ID, and little-endian opcode 0x2100 at offset 8. -/
def _is_artpoll_reply (data : List ℕ) : Bool :=
  decide (10 ≤ data.length) && decide (data.take 8 = ARTNET_ID) &&
    decide (data.getD 8 0 + 256 * data.getD 9 0 = 0x2100)

/-- The device record built by `_parse_artpoll_reply`.  The source renders
`reported_ip` as a dotted-decimal string of the 4 bytes at offsets 10-13;
since the bytes determine that string the record keeps the bytes. -/
structure ArtDevice where
  reported_ip : List ℕ
  source_ip : String
  short_name : List ℕ
  long_name : List ℕ
  deriving Repr, DecidableEq

/-- artnet.py lines 90-106 (`_parse_artpoll_reply`).  The body is wrapped
in `try ... except`: with fewer than 14 bytes `ip_bytes[k]` raises
`IndexError`, which is caught and turns into `None`; from 14 bytes on the
name slices `data[26:43]` and `data[44:171]` are plain Python slices and
never raise (possibly empty or truncated). -/
def _parse_artpoll_reply (data : List ℕ) (addr : String) : Option ArtDevice :=
  if data.length < 14 then none
  else
    some
      { reported_ip := (data.drop 10).take 4
        source_ip := addr
        short_name := strip_nul (decode_ascii_ignore ((data.drop 26).take 17))
        long_name := strip_nul (decode_ascii_ignore ((data.drop 44).take 127)) }

/-- The body of the collection loop of `discover_devices` (artnet.py
lines 61-65) for one received datagram: replies that pass
`_is_artpoll_reply` and parse are recorded only if their `reported_ip` is
not present yet. -/
def discover_step (devices : List ArtDevice) (dg : List ℕ × String) :
    List ArtDevice :=
  if _is_artpoll_reply dg.1 then
    match _parse_artpoll_reply dg.1 dg.2 with
    | some device =>
      if devices.any (fun d => decide (d.reported_ip = device.reported_ip))
      then devices
      else devices ++ [device]
    | none => devices
  else devices

/-- artnet.py lines 48-73 (`ArtNetDiscovery.discover_devices`), as a
function of the sequence of datagrams received before the timeout (each
with its sender address).  The `devices` dict keyed by `reported_ip` with
"insert only if absent" and `list(devices.values())` in insertion order is
exactly an append-if-absent list. -/
def discover_devices (datagrams : List (List ℕ × String)) : List ArtDevice :=
  datagrams.foldl discover_step []

end ArtNetDiscovery

/-! ### LLRP discovery (llrp.py) -/

namespace LlrpDiscovery

def VECTOR_ROOT_LLRP : ℕ := 0x0000000A
def VECTOR_LLRP_PROBE_REPLY : ℕ := 0x00000002
def VECTOR_LLRP_RDM_CMD : ℕ := 0x00000003
def VECTOR_PROBE_REPLY_DATA : ℕ := 0x01
def VECTOR_RDM_CMD_RDM_DATA : ℕ := 0xCC
def E120_GET_COMMAND_RESPONSE : ℕ := 0x21
def E120_DEVICE_LABEL : ℕ := 0x0082

/-- llrp.py lines 126-148 (`_parse_probe_reply`): returns
`(sender_cid, uid, hw, comp_type)` for a well-formed probe reply. -/
def _parse_probe_reply (data : List ℕ) :
    Option (List ℕ × List ℕ × List ℕ × ℕ) :=
  if data.length < 16 + 23 + 27 + 17 then none
  else
    let offset := 16
    if beAt32 data (offset + 3) ≠ VECTOR_ROOT_LLRP then none
    else
      let sender_cid := (data.drop (offset + 7)).take 16
      let offset := offset + 23
      if beAt32 data (offset + 3) ≠ VECTOR_LLRP_PROBE_REPLY then none
      else
        let offset := offset + 27
        if data.getD (offset + 3) 0 ≠ VECTOR_PROBE_REPLY_DATA then none
        else
          some (sender_cid, (data.drop (offset + 4)).take 6,
            (data.drop (offset + 10)).take 6, data.getD (offset + 16) 0)

/-- llrp.py lines 151-175 (`_parse_rdm_label_response`): returns the
decoded device label of a GET-command-response for `DEVICE_LABEL`. -/
def _parse_rdm_label_response (data : List ℕ) : Option (List ℕ) :=
  if data.length < 16 + 23 + 27 + 4 then none
  else
    let offset := 16 + 23
    if beAt32 data (offset + 3) ≠ VECTOR_LLRP_RDM_CMD then none
    else
      let offset := offset + 27
      if data.getD (offset + 3) 0 ≠ VECTOR_RDM_CMD_RDM_DATA then none
      else
        let rdm := data.drop (offset + 4)
        if rdm.length < 24 then none
        else
          let command_class := rdm.getD 20 0
          let pid := 256 * rdm.getD 21 0 + rdm.getD 22 0
          let pdl := rdm.getD 23 0
          if command_class ≠ E120_GET_COMMAND_RESPONSE ∨ pid ≠ E120_DEVICE_LABEL
          then none
          else some (strip_nul (decode_ascii_ignore ((rdm.drop 24).take pdl)))

/-- Working entry of the `devices` dict during `discover_devices`
(llrp.py lines 235-243).  The source stores `uid` both as a formatted hex
string and as raw bytes (`target_uid`); the bytes determine the string, so
both are kept as byte lists. -/
structure LlrpDevice where
  source_ip : String
  short_name : List ℕ
  long_name : List ℕ
  uid : List ℕ
  component_type : ℕ
  target_cid : List ℕ
  target_uid : List ℕ
  deriving Repr, DecidableEq

/-- Result entry after `target_cid`/`target_uid` are popped
(llrp.py lines 273-275). -/
structure LlrpResult where
  source_ip : String
  short_name : List ℕ
  long_name : List ℕ
  uid : List ℕ
  component_type : ℕ
  deriving Repr, DecidableEq

/-- One iteration of the probe-collection loop (llrp.py lines 227-243):
parse failures are skipped, deduplication is by source IP (first reply
per IP wins), `short_name` starts empty. -/
def probe_step (devices : List LlrpDevice) (r : List ℕ × String) :
    List LlrpDevice :=
  match _parse_probe_reply r.1 with
  | none => devices
  | some (sender_cid, uid, _hw, comp_type) =>
    if devices.any (fun d => decide (d.source_ip = r.2)) then devices
    else
      devices ++
        [{ source_ip := r.2, short_name := [], long_name := [],
           uid := uid, component_type := comp_type,
           target_cid := sender_cid, target_uid := uid }]

/-- The probe-collection loop of llrp.py lines 221-243, over the received
probe datagrams. -/
def probe_phase (replies : List (List ℕ × String)) : List LlrpDevice :=
  replies.foldl probe_step []

/-- One iteration of the label-collection loop (llrp.py lines 265-271):
a datagram that parses to a non-empty label (the source tests `if not
label:`, so an empty decoded label is skipped like a parse failure)
updates the `short_name` of the device with that source IP, if any. -/
def label_step (devs : List LlrpDevice) (r : List ℕ × String) :
    List LlrpDevice :=
  match _parse_rdm_label_response r.1 with
  | none => devs
  | some label =>
    if label = [] then devs
    else
      devs.map fun d =>
        if d.source_ip = r.2 then { d with short_name := label } else d

/-- The label-collection loop of llrp.py lines 259-271, over the received
label datagrams. -/
def label_phase (devices : List LlrpDevice)
    (replies : List (List ℕ × String)) : List LlrpDevice :=
  replies.foldl label_step devices

/-- llrp.py lines 215-277 (`LlrpDiscovery.discover_devices`), as a
function of the datagrams received in the probe window and in the label
window: probe phase; if it yields no devices, return `[]` at once (the
label phase is skipped); otherwise run the label phase and return the
entries with the target fields popped, in insertion order. -/
def discover_devices (probe_replies label_replies : List (List ℕ × String)) :
    List LlrpResult :=
  let devices := probe_phase probe_replies
  if devices = [] then []
  else
    (label_phase devices label_replies).map fun d =>
      { source_ip := d.source_ip, short_name := d.short_name,
        long_name := d.long_name, uid := d.uid,
        component_type := d.component_type }

end LlrpDiscovery

/-! ## Theorems -/

/-! ### C6: the 16-bit RDM checksum -/

/-- C6: evaluation of the code at the failing input.  The serial codec's
`calculate_rdm_checksum` does NOT truncate to 16 bits as its docstring
("Calculates the 16-bit RDM checksum"), the spec and the sibling
`_rdm_checksum` promise — on 258 bytes of `0xFF` it returns 65790, while
the byte sum mod 2^16 is 254. -/
theorem calculate_rdm_checksum_not_truncated :
    calculate_rdm_checksum (List.replicate 258 255) ≠
      (List.replicate 258 255).sum % 2 ^ 16 := by
  simp only [calculate_rdm_checksum, List.sum_replicate, smul_eq_mul]
  norm_num

/-- Characterization of the two checksum implementations (supporting C6):
the LLRP codec's `_rdm_checksum` is the byte sum truncated to 16 bits for
every byte string; the serial codec's `calculate_rdm_checksum` is the
plain untruncated byte sum, and it agrees with the truncated sum exactly
when the sum is below 2^16.  Both are pure, so recomputing on the same
bytes always yields the same value. -/
theorem rdm_checksum_characterization (b : List ℕ) :
    _rdm_checksum b = b.sum % 2 ^ 16 ∧
    calculate_rdm_checksum b = b.sum ∧
    (calculate_rdm_checksum b = b.sum % 2 ^ 16 ↔ b.sum < 2 ^ 16) := by
  refine ⟨?_, rfl, ?_, ?_⟩
  · show b.sum &&& 65535 = b.sum % 2 ^ 16
    have h1 : (65535 : ℕ) = 2 ^ 16 - 1 := by norm_num
    rw [h1, Nat.and_pow_two_sub_one_eq_mod]
  · intro h
    have := Nat.mod_lt b.sum (show 0 < 2 ^ 16 by norm_num)
    calc b.sum = b.sum % 2 ^ 16 := h
      _ < 2 ^ 16 := this
  · intro h
    show b.sum = b.sum % 2 ^ 16
    exact (Nat.mod_eq_of_lt h).symm

/-! ### C5: when message building fails -/

set_option maxRecDepth 4000 in
/-- C5 counterexample: a parameter-data block of 232 bytes is within the
claimed 255-byte limit, yet `build_rdm_packet` fails (in the source,
`bytearray([RDM_START_CODE, RDM_SUB_START_CODE, message_length])` raises
`ValueError` because `message_length = 24 + 232 = 256` does not fit a
byte).  There is no `EncodingError`-style 255-byte check anywhere in the
function. -/
theorem build_rdm_packet_fails_within_255 :
    (List.replicate 232 (0 : ℕ)).length ≤ 255 ∧
    build_rdm_packet [1, 2, 3, 4, 5, 6] 0 DISCOVERY_COMMAND DISC_MUTE
      (List.replicate 232 0) = none := by
  constructor
  · simp
  · rw [build_rdm_packet, if_pos (by simp)]

/-- C5 (amended): with byte-valued inputs (6-byte destination UID, byte
transaction number and command class, 16-bit parameter id), building
succeeds exactly when the parameter data has at most 231 bytes, i.e. when
the one-byte message-length field `24 + len(pd)` fits in a byte; larger
parameter data makes the source raise `ValueError`, not a checked
`EncodingError`. -/
theorem build_rdm_packet_isSome_iff (dest_uid : List ℕ) (tn cc pid : ℕ)
    (pd : List ℕ) (hdest_len : dest_uid.length = 6)
    (hdest : ∀ b ∈ dest_uid, b < 256) (hpd : ∀ b ∈ pd, b < 256)
    (htn : tn ≤ 255) (hcc : cc ≤ 255) (hpid : pid ≤ 65535) :
    (build_rdm_packet dest_uid tn cc pid pd).isSome ↔ pd.length ≤ 231 := by
  by_cases hlen : 255 < 24 + pd.length
  · rw [build_rdm_packet, if_pos hlen]
    simp only [Option.isSome_none, Bool.false_eq_true, false_iff]
    omega
  · have hdsum : dest_uid.sum ≤ 1530 := by
      have := List.sum_le_card_nsmul dest_uid 255 fun x hx =>
        Nat.le_of_lt_succ (hdest x hx)
      rw [hdest_len] at this
      simpa using this
    have hpsum : pd.sum ≤ pd.length * 255 := by
      have := List.sum_le_card_nsmul pd 255 fun x hx =>
        Nat.le_of_lt_succ (hpd x hx)
      simpa [Nat.smul_one_eq_cast] using this
    have hdivle : pid / 256 ≤ 255 := by omega
    have hmodle : pid % 256 ≤ 255 := by omega
    have hcs :
        ([RDM_START_CODE, RDM_SUB_START_CODE, 24 + pd.length] ++ dest_uid ++
            CONTROLLER_UID ++ [tn, 1, 0] ++ [0x00, 0x00] ++ [cc] ++
            [pid / 256, pid % 256] ++ [pd.length] ++ pd).sum ≤ 65535 := by
      simp only [List.sum_append, List.sum_cons, List.sum_nil,
        RDM_START_CODE, RDM_SUB_START_CODE, CONTROLLER_UID]
      omega
    rw [build_rdm_packet, if_neg hlen, if_neg (by omega : ¬ 255 < tn),
      if_neg (by omega : ¬ 255 < cc), if_neg (by omega : ¬ 65535 < pid)]
    simp only [calculate_rdm_checksum]
    rw [if_neg (by simpa using Nat.not_lt.2 hcs)]
    simp only [Option.isSome_some, true_iff]
    omega

/-- C5 witness: a 3-byte parameter data with byte-valued inputs builds
successfully. -/
theorem build_rdm_packet_isSome_iff_witness :
    (build_rdm_packet [1, 2, 3, 4, 5, 6] 7 0x20 0x0082 [9, 8, 7]).isSome :=
  (build_rdm_packet_isSome_iff [1, 2, 3, 4, 5, 6] 7 0x20 0x0082 [9, 8, 7]
    (by decide) (by decide) (by decide) (by decide) (by decide)
    (by decide)).mpr (by decide)

/-! ### C4: malformed gateway envelopes -/

/-- C4 counterexample: a one-byte response consisting of just the header
byte `0xA5` makes `parse_robe_response` raise an uncaught `IndexError` at
`response[1]` (the function has no `try`/`except`), modelled as `none`:
it does not return a status tuple. -/
theorem parse_robe_response_crashes_on_truncated :
    parse_robe_response [0xA5] = none := by
  rfl

/-- C4 (amended): `parse_robe_response` returns a status tuple without
raising for every response that is empty, has a wrong first byte, or has
at least 4 bytes (empty/bad-header responses give the "error" status);
only a response of 1 to 3 bytes starting with `0xA5` escapes with an
uncaught `IndexError`/`struct.error`. -/
theorem parse_robe_response_total_unless_short_header (response : List ℕ)
    (h : response.length = 0 ∨ response.getD 0 0 ≠ HEADER ∨
      4 ≤ response.length) :
    (parse_robe_response response).isSome := by
  rw [parse_robe_response]
  by_cases herr : response.length = 0 ∨ response.getD 0 0 ≠ HEADER
  · rw [if_pos herr]
    exact Option.isSome_some
  · rw [if_neg herr]
    have h4 : 4 ≤ response.length := by tauto
    rw [if_neg (by omega : ¬ response.length < 4)]
    dsimp only
    split
    · exact Option.isSome_some
    · split
      · split
        · exact Option.isSome_some
        · split <;> exact Option.isSome_some
      · exact Option.isSome_some

/-- C4 witness: a 4-byte discovery-timeout response parses to a status. -/
theorem parse_robe_response_total_witness :
    (parse_robe_response [0xA5, 0x13, 4, 0]).isSome :=
  parse_robe_response_total_unless_short_header [0xA5, 0x13, 4, 0]
    (Or.inr (Or.inr (by decide)))

/-! ### C10: the Art-Net 14-byte parse threshold -/

/-- C10: every datagram that passes `_is_artpoll_reply` parses to a device
record iff it has at least 14 bytes: the record's `reported_ip` is bytes
10-13 and the names are the (possibly empty or truncated) NUL-stripped
ASCII slices; with 10 to 13 bytes the parse fails on the missing IP bytes
and the packet is skipped. -/
theorem artpoll_reply_parse_threshold (data : List ℕ) (addr : String)
    (hreply : ArtNetDiscovery._is_artpoll_reply data = true) :
    (14 ≤ data.length →
      ArtNetDiscovery._parse_artpoll_reply data addr =
        some
          { reported_ip := (data.drop 10).take 4
            source_ip := addr
            short_name :=
              strip_nul (decode_ascii_ignore ((data.drop 26).take 17))
            long_name :=
              strip_nul (decode_ascii_ignore ((data.drop 44).take 127)) }) ∧
    (data.length ≤ 13 →
      ArtNetDiscovery._parse_artpoll_reply data addr = none) := by
  constructor
  · intro h14
    rw [ArtNetDiscovery._parse_artpoll_reply, if_neg (by omega)]
  · intro h13
    rw [ArtNetDiscovery._parse_artpoll_reply, if_pos (by omega)]

/-- C10 witness: a minimal 14-byte ArtPollReply parses to a record with
`reported_ip` 10.0.0.5 and empty names, while its 12-byte truncation
passes the reply check but parses to nothing. -/
theorem artpoll_reply_parse_threshold_witness :
    ArtNetDiscovery._parse_artpoll_reply
        [0x41, 0x72, 0x74, 0x2D, 0x4E, 0x65, 0x74, 0x00, 0x00, 0x21,
          10, 0, 0, 5] "10.0.0.5" =
      some
        { reported_ip := [10, 0, 0, 5], source_ip := "10.0.0.5",
          short_name := [], long_name := [] } ∧
    ArtNetDiscovery._parse_artpoll_reply
        [0x41, 0x72, 0x74, 0x2D, 0x4E, 0x65, 0x74, 0x00, 0x00, 0x21,
          10, 0] "10.0.0.5" = none := by
  constructor
  · have h := (artpoll_reply_parse_threshold
      [0x41, 0x72, 0x74, 0x2D, 0x4E, 0x65, 0x74, 0x00, 0x00, 0x21,
        10, 0, 0, 5] "10.0.0.5" (by decide)).1 (by decide)
    rw [h]
    decide
  · exact (artpoll_reply_parse_threshold
      [0x41, 0x72, 0x74, 0x2D, 0x4E, 0x65, 0x74, 0x00, 0x00, 0x21,
        10, 0] "10.0.0.5" (by decide)).2 (by decide)

/-! ### C3: the gateway envelope -/

/-- The 16-bit little-endian length field of a built gateway packet holds
the wrapped payload length reduced modulo 2^16 (helper shared by the C3
theorems). -/
lemma robe_len_field_build (packet_type : ℕ) (rdm_packet pad : List ℕ) :
    robe_len_field (build_robe_packet packet_type rdm_packet pad) =
      (if packet_type = PACKET_TYPE_RDM_PACKET_OUT ∨
          packet_type = PACKET_TYPE_RDM_DISCOVERY_UNIQUE_BRANCH then
        (rdm_packet ++ pad).length
      else rdm_packet.length) % 65536 := by
  unfold build_robe_packet robe_len_field
  dsimp only
  by_cases hc : packet_type = PACKET_TYPE_RDM_PACKET_OUT ∨
      packet_type = PACKET_TYPE_RDM_DISCOVERY_UNIQUE_BRANCH
  · rw [if_pos hc, if_pos hc]
    show (rdm_packet ++ pad).length % 256 +
        256 * ((rdm_packet ++ pad).length / 256 % 256) =
      (rdm_packet ++ pad).length % 65536
    omega
  · rw [if_neg hc, if_neg hc]
    show rdm_packet.length % 256 + 256 * (rdm_packet.length / 256 % 256) =
      rdm_packet.length % 65536
    omega

/-- C3 counterexample: the 16-bit little-endian length field stores the
wrapped length modulo 2^16, so for a 65532-byte RDM payload wrapped with
the 4 padding bytes (total 65536) the field reads 0, not the wrapped
payload length. -/
theorem robe_len_field_wraps :
    robe_len_field (build_robe_packet PACKET_TYPE_RDM_PACKET_OUT
        (List.replicate 65532 0) [0, 0, 0, 0]) ≠
      (List.replicate (65532 : ℕ) (0 : ℕ)).length + 4 := by
  have h := robe_len_field_build PACKET_TYPE_RDM_PACKET_OUT
    (List.replicate 65532 0) [0, 0, 0, 0]
  rw [if_pos (Or.inl rfl)] at h
  rw [h]
  intro hcontra
  rw [List.length_append, List.length_replicate] at hcontra
  norm_num at hcontra

/-- C3 (amended): for every packet type and RDM payload (with the 4
gateway padding bytes wrapped in for the two outgoing RDM packet types),
the built packet starts with `0xA5`, its fifth byte is the sum of the
first 4 bytes mod 256, its final byte is the sum of all preceding bytes
mod 256, and its 16-bit little-endian length field equals the wrapped
payload length reduced modulo 2^16 (equality with the plain wrapped
length holds only below 65536). -/
theorem build_robe_packet_envelope (packet_type : ℕ) (rdm_packet pad : List ℕ)
    (hpad : pad.length = 4) :
    (build_robe_packet packet_type rdm_packet pad).getD 0 0 = HEADER ∧
    (build_robe_packet packet_type rdm_packet pad).getD 4 0 =
      ((build_robe_packet packet_type rdm_packet pad).take 4).sum % 256 ∧
    (build_robe_packet packet_type rdm_packet pad).getLast? =
      some ((build_robe_packet packet_type rdm_packet pad).dropLast.sum % 256) ∧
    robe_len_field (build_robe_packet packet_type rdm_packet pad) =
      (if packet_type = PACKET_TYPE_RDM_PACKET_OUT ∨
          packet_type = PACKET_TYPE_RDM_DISCOVERY_UNIQUE_BRANCH then
        rdm_packet.length + 4
      else rdm_packet.length) % 65536 := by
  refine ⟨rfl, rfl, ?_, ?_⟩
  · unfold build_robe_packet
    dsimp only
    rw [List.getLast?_concat, List.dropLast_concat]
    rfl
  · rw [robe_len_field_build]
    by_cases hc : packet_type = PACKET_TYPE_RDM_PACKET_OUT ∨
        packet_type = PACKET_TYPE_RDM_DISCOVERY_UNIQUE_BRANCH
    · rw [if_pos hc, if_pos hc, List.length_append, hpad]
    · rw [if_neg hc, if_neg hc]

/-- C3 witness: the envelope properties at a concrete 2-byte payload with
4 concrete padding bytes. -/
theorem build_robe_packet_envelope_witness :
    (build_robe_packet 0x10 [1, 2] [7, 8, 9, 10]).getD 0 0 = HEADER ∧
    robe_len_field (build_robe_packet 0x10 [1, 2] [7, 8, 9, 10]) = 6 := by
  have h := build_robe_packet_envelope 0x10 [1, 2] [7, 8, 9, 10] rfl
  exact ⟨h.1, by simpa using h.2.2.2⟩

/-! ### C7: serial open failure -/

/-- C7: when the serial device path cannot be opened, `get_port` swallows
the `SerialException` and returns `None`; the first `ser.write` inside the
discovery then raises, which `run_rdm_discovery`'s `except` block posts as
a discovery-run failure with a reason — never a (possibly empty) device
list. -/
theorem serial_open_failure_is_hard (fuel : ℕ) :
    (∃ reason, run_rdm_discovery SerialEnv.failsToOpen fuel =
      RdmRunOutcome.failure reason) ∧
    ∀ uids, run_rdm_discovery SerialEnv.failsToOpen fuel ≠
      RdmRunOutcome.devices uids := by
  exact ⟨⟨_, rfl⟩, fun uids h => RdmRunOutcome.noConfusion h⟩

/-! ### C2: build/parse round trip -/

/-- C2: parsing (with `parse_rdm_response`'s field extraction) any message
assembled by `build_rdm_packet` recovers the destination UID, the source
UID (the controller UID), the command class, the parameter id and the
parameter data. -/
theorem build_parse_round_trip (dest_uid : List ℕ) (tn cc pid : ℕ)
    (pd m : List ℕ) (hdest : dest_uid.length = 6)
    (hbuild : build_rdm_packet dest_uid tn cc pid pd = some m) :
    ∃ f, parse_rdm_fields m = some f ∧ f.dest_uid = dest_uid ∧
      f.src_uid = CONTROLLER_UID ∧ f.cc = cc ∧ f.pid = pid ∧ f.pd = pd := by
  obtain ⟨a, b, c, d, e, f6, rfl⟩ :
      ∃ a b c d e f6, dest_uid = [a, b, c, d, e, f6] := by
    rcases dest_uid with _ | ⟨a, _ | ⟨b, _ | ⟨c, _ | ⟨d, _ | ⟨e, _ | ⟨f6,
      _ | ⟨g, t⟩⟩⟩⟩⟩⟩⟩ <;>
      first
        | exact ⟨a, b, c, d, e, f6, rfl⟩
        | (simp only [List.length_cons, List.length_nil] at hdest; omega)
  unfold build_rdm_packet at hbuild
  dsimp only at hbuild
  split_ifs at hbuild with h1 h2 h3 h4 h5 <;>
    try exact Option.noConfusion hbuild
  rw [Option.some_inj] at hbuild
  subst hbuild
  unfold parse_rdm_fields
  split_ifs with hshort
  · exfalso
    simp only [CONTROLLER_UID, List.cons_append, List.nil_append,
      List.append_assoc, List.drop_succ_cons, List.drop_zero,
      List.length_append, List.length_cons, List.length_nil] at hshort
    omega
  · refine ⟨_, rfl, rfl, rfl, rfl, ?_, ?_⟩
    · show 256 * (pid / 256) + pid % 256 = pid
      omega
    · exact List.take_left pd _

/-- C2 witness: the round trip on a concrete GET `DEVICE_LABEL` message
with destination `01:02:03:04:05:06`, transaction 7 and 3 data bytes. -/
theorem build_parse_round_trip_witness :
    ∃ f, parse_rdm_fields
        ((build_rdm_packet [1, 2, 3, 4, 5, 6] 7 0x20 0x0082
          [9, 8, 7]).getD []) = some f ∧
      f.dest_uid = [1, 2, 3, 4, 5, 6] ∧ f.src_uid = CONTROLLER_UID ∧
      f.cc = 0x20 ∧ f.pid = 0x0082 ∧ f.pd = [9, 8, 7] :=
  build_parse_round_trip [1, 2, 3, 4, 5, 6] 7 0x20 0x0082 [9, 8, 7]
    ((build_rdm_packet [1, 2, 3, 4, 5, 6] 7 0x20 0x0082 [9, 8, 7]).getD [])
    (by decide) (by decide)

/-- The checksum characterization at a concrete two-byte string. -/
theorem rdm_checksum_characterization_witness :
    _rdm_checksum [250, 250] = [250, 250].sum % 2 ^ 16 ∧
    calculate_rdm_checksum [250, 250] = [250, 250].sum ∧
    (calculate_rdm_checksum [250, 250] = [250, 250].sum % 2 ^ 16 ↔
      [250, 250].sum < 2 ^ 16) :=
  rdm_checksum_characterization [250, 250]

/-- C7 witness: the open-failure outcome at a concrete fuel value. -/
theorem serial_open_failure_is_hard_witness :
    (∃ reason, run_rdm_discovery SerialEnv.failsToOpen 5 =
      RdmRunOutcome.failure reason) ∧
    ∀ uids, run_rdm_discovery SerialEnv.failsToOpen 5 ≠
      RdmRunOutcome.devices uids :=
  serial_open_failure_is_hard 5

/-! ### C8: Art-Net deduplication -/

/-- Helper: datagrams that never parse to a device with reported IP `ip`
leave the `ip`-entries of the accumulator unchanged. -/
lemma artnet_foldl_filter_absent (ip : List ℕ) :
    ∀ (dgs : List (List ℕ × String)) (acc : List ArtNetDiscovery.ArtDevice),
      (∀ dg ∈ dgs, ∀ dev,
        ArtNetDiscovery._parse_artpoll_reply dg.1 dg.2 = some dev →
        dev.reported_ip ≠ ip) →
      (dgs.foldl ArtNetDiscovery.discover_step acc).filter
          (fun d => decide (d.reported_ip = ip)) =
        acc.filter (fun d => decide (d.reported_ip = ip)) := by
  intro dgs
  induction dgs with
  | nil => intro acc _; rfl
  | cons dg rest ih =>
    intro acc hnone
    rw [List.foldl_cons,
      ih _ fun x hx => hnone x (List.mem_cons_of_mem _ hx)]
    unfold ArtNetDiscovery.discover_step
    by_cases hr : ArtNetDiscovery._is_artpoll_reply dg.1 = true
    · rw [if_pos hr]
      cases hp : ArtNetDiscovery._parse_artpoll_reply dg.1 dg.2 with
      | none => rfl
      | some device =>
        dsimp only
        by_cases ha : acc.any
            (fun d => decide (d.reported_ip = device.reported_ip)) = true
        · rw [if_pos ha]
        · rw [if_neg ha, List.filter_append]
          have hdev : device.reported_ip ≠ ip :=
            hnone dg (List.mem_cons_self _ _) device hp
          simp [hdev]
    · rw [if_neg hr]

/-- Helper: one step never touches the `ip`-entries once one is present
(a later reply from a recorded IP is discarded). -/
lemma artnet_step_filter_stable (ip : List ℕ)
    (acc : List ArtNetDiscovery.ArtDevice) (dg : List ℕ × String)
    (hne : acc.filter (fun d => decide (d.reported_ip = ip)) ≠ []) :
    (ArtNetDiscovery.discover_step acc dg).filter
        (fun d => decide (d.reported_ip = ip)) =
      acc.filter (fun d => decide (d.reported_ip = ip)) := by
  unfold ArtNetDiscovery.discover_step
  by_cases hr : ArtNetDiscovery._is_artpoll_reply dg.1 = true
  · rw [if_pos hr]
    cases hp : ArtNetDiscovery._parse_artpoll_reply dg.1 dg.2 with
    | none => rfl
    | some device =>
      dsimp only
      by_cases ha : acc.any
          (fun d => decide (d.reported_ip = device.reported_ip)) = true
      · rw [if_pos ha]
      · rw [if_neg ha, List.filter_append]
        have hdev : device.reported_ip ≠ ip := by
          intro heq
          apply ha
          rw [Ne, List.filter_eq_nil] at hne
          push_neg at hne
          obtain ⟨x, hxmem, hxp⟩ := hne
          refine List.any_eq_true.2 ⟨x, hxmem, ?_⟩
          simp only [decide_eq_true_eq] at hxp ⊢
          rw [heq]
          exact hxp
        simp [hdev]
  · rw [if_neg hr]

/-- Helper: once an entry with reported IP `ip` is in the accumulator,
no later datagram changes the `ip`-entries. -/
lemma artnet_foldl_filter_stable (ip : List ℕ) :
    ∀ (dgs : List (List ℕ × String)) (acc : List ArtNetDiscovery.ArtDevice),
      acc.filter (fun d => decide (d.reported_ip = ip)) ≠ [] →
      (dgs.foldl ArtNetDiscovery.discover_step acc).filter
          (fun d => decide (d.reported_ip = ip)) =
        acc.filter (fun d => decide (d.reported_ip = ip)) := by
  intro dgs
  induction dgs with
  | nil => intro acc _; rfl
  | cons dg rest ih =>
    intro acc hne
    have hstep := artnet_step_filter_stable ip acc dg hne
    rw [List.foldl_cons, ih _ (by rw [hstep]; exact hne), hstep]

/-- C8: deduplication is first-reply-wins by reported IP.  For a received
sequence containing two well-formed ArtPollReply datagrams with the same
reported IP (`dg1` first, with no earlier reply for that IP), the result
contains exactly one entry for that IP — the record parsed from `dg1` —
and the later record is discarded whenever it differs (e.g. different
names). -/
theorem artnet_dedup_first_wins (pre mid post : List (List ℕ × String))
    (dg1 dg2 : List ℕ × String) (d1 d2 : ArtNetDiscovery.ArtDevice)
    (h1r : ArtNetDiscovery._is_artpoll_reply dg1.1 = true)
    (h1p : ArtNetDiscovery._parse_artpoll_reply dg1.1 dg1.2 = some d1)
    (h2r : ArtNetDiscovery._is_artpoll_reply dg2.1 = true)
    (h2p : ArtNetDiscovery._parse_artpoll_reply dg2.1 dg2.2 = some d2)
    (hip : d2.reported_ip = d1.reported_ip)
    (hpre : ∀ dg ∈ pre, ∀ dev,
      ArtNetDiscovery._parse_artpoll_reply dg.1 dg.2 = some dev →
      dev.reported_ip ≠ d1.reported_ip) :
    (ArtNetDiscovery.discover_devices
        (pre ++ dg1 :: mid ++ dg2 :: post)).filter
      (fun d => decide (d.reported_ip = d1.reported_ip)) = [d1] ∧
    (d2 ≠ d1 → d2 ∉ ArtNetDiscovery.discover_devices
      (pre ++ dg1 :: mid ++ dg2 :: post)) := by
  have hfilter : (ArtNetDiscovery.discover_devices
      (pre ++ dg1 :: mid ++ dg2 :: post)).filter
        (fun d => decide (d.reported_ip = d1.reported_ip)) = [d1] := by
    unfold ArtNetDiscovery.discover_devices
    simp only [List.foldl_append, List.foldl_cons]
    have hacc0 : ((pre.foldl ArtNetDiscovery.discover_step []).filter
        (fun d => decide (d.reported_ip = d1.reported_ip))) = [] := by
      rw [artnet_foldl_filter_absent _ pre [] hpre]
      rfl
    have hstep1 : ArtNetDiscovery.discover_step
        (pre.foldl ArtNetDiscovery.discover_step []) dg1 =
        pre.foldl ArtNetDiscovery.discover_step [] ++ [d1] := by
      unfold ArtNetDiscovery.discover_step
      rw [if_pos h1r, h1p]
      dsimp only
      rw [if_neg ?ha]
      case ha =>
        intro hany
        obtain ⟨x, hxmem, hxp⟩ := List.any_eq_true.1 hany
        have : x ∈ (pre.foldl ArtNetDiscovery.discover_step []).filter
            (fun d => decide (d.reported_ip = d1.reported_ip)) :=
          List.mem_filter.2 ⟨hxmem, hxp⟩
        rw [hacc0] at this
        exact absurd this (List.not_mem_nil x)
    have h1 : ((ArtNetDiscovery.discover_step
        (pre.foldl ArtNetDiscovery.discover_step []) dg1).filter
          (fun d => decide (d.reported_ip = d1.reported_ip))) = [d1] := by
      rw [hstep1, List.filter_append, hacc0]
      simp
    have h2 : ((mid.foldl ArtNetDiscovery.discover_step
        (ArtNetDiscovery.discover_step
          (pre.foldl ArtNetDiscovery.discover_step []) dg1)).filter
          (fun d => decide (d.reported_ip = d1.reported_ip))) = [d1] := by
      rw [artnet_foldl_filter_stable _ mid _ (by rw [h1]; simp), h1]
    have h3 := artnet_step_filter_stable d1.reported_ip _ dg2
      (by rw [h2]; simp)
    rw [artnet_foldl_filter_stable _ post _ (by rw [h3, h2]; simp), h3, h2]
  refine ⟨hfilter, fun hne hmem => hne ?_⟩
  have hd2 : d2 ∈ (ArtNetDiscovery.discover_devices
      (pre ++ dg1 :: mid ++ dg2 :: post)).filter
        (fun d => decide (d.reported_ip = d1.reported_ip)) :=
    List.mem_filter.2 ⟨hmem, by simp [hip]⟩
  rw [hfilter] at hd2
  simpa using hd2

/-- C8 witness: two concrete ArtPollReply datagrams with reported IP
10.0.0.5 — the first with empty names, the second carrying a short name —
yield exactly the first record, and the second record is not in the
result. -/
theorem artnet_dedup_first_wins_witness :
    (ArtNetDiscovery.discover_devices
        [([0x41, 0x72, 0x74, 0x2D, 0x4E, 0x65, 0x74, 0x00, 0x00, 0x21,
           10, 0, 0, 5], "10.0.0.5"),
         ([0x41, 0x72, 0x74, 0x2D, 0x4E, 0x65, 0x74, 0x00, 0x00, 0x21,
           10, 0, 0, 5, 0, 0, 0, 0, 0, 0, 0, 0, 0, 0, 0, 0, 65],
          "10.0.0.6")]).filter
      (fun d => decide (d.reported_ip = [10, 0, 0, 5])) =
      [{ reported_ip := [10, 0, 0, 5], source_ip := "10.0.0.5",
         short_name := [], long_name := [] }] ∧
    ({ reported_ip := [10, 0, 0, 5], source_ip := "10.0.0.6",
       short_name := [65], long_name := [] } :
        ArtNetDiscovery.ArtDevice) ∉
      ArtNetDiscovery.discover_devices
        [([0x41, 0x72, 0x74, 0x2D, 0x4E, 0x65, 0x74, 0x00, 0x00, 0x21,
           10, 0, 0, 5], "10.0.0.5"),
         ([0x41, 0x72, 0x74, 0x2D, 0x4E, 0x65, 0x74, 0x00, 0x00, 0x21,
           10, 0, 0, 5, 0, 0, 0, 0, 0, 0, 0, 0, 0, 0, 0, 0, 65],
          "10.0.0.6")] := by
  have h := artnet_dedup_first_wins []
    []
    []
    ([0x41, 0x72, 0x74, 0x2D, 0x4E, 0x65, 0x74, 0x00, 0x00, 0x21,
      10, 0, 0, 5], "10.0.0.5")
    ([0x41, 0x72, 0x74, 0x2D, 0x4E, 0x65, 0x74, 0x00, 0x00, 0x21,
      10, 0, 0, 5, 0, 0, 0, 0, 0, 0, 0, 0, 0, 0, 0, 0, 65], "10.0.0.6")
    { reported_ip := [10, 0, 0, 5], source_ip := "10.0.0.5",
      short_name := [], long_name := [] }
    { reported_ip := [10, 0, 0, 5], source_ip := "10.0.0.6",
      short_name := [65], long_name := [] }
    (by decide) (by decide) (by decide) (by decide) (by decide)
    (by simp)
  exact ⟨h.1, h.2 (by decide)⟩

/-! ### C9: LLRP result completeness -/

/-- Helper: one label-phase step either leaves the device list unchanged
or maps every entry, renaming exactly the entries whose source IP matches
the reply's sender. -/
lemma llrp_label_step_eq (devs : List LlrpDiscovery.LlrpDevice)
    (r : List ℕ × String) :
    LlrpDiscovery.label_step devs r = devs ∨
    ∃ label, LlrpDiscovery._parse_rdm_label_response r.1 = some label ∧
      label ≠ [] ∧
      LlrpDiscovery.label_step devs r =
        devs.map fun d =>
          if d.source_ip = r.2 then { d with short_name := label } else d := by
  unfold LlrpDiscovery.label_step
  cases hp : LlrpDiscovery._parse_rdm_label_response r.1 with
  | none => exact Or.inl rfl
  | some label =>
    dsimp only
    by_cases hl : label = []
    · rw [if_pos hl]
      exact Or.inl rfl
    · rw [if_neg hl]
      exact Or.inr ⟨label, rfl, hl, rfl⟩

/-- Helper: every device recorded by the probe loop has an empty
`short_name`. -/
lemma llrp_probe_phase_short_names :
    ∀ (replies : List (List ℕ × String))
      (acc : List LlrpDiscovery.LlrpDevice),
      (∀ d ∈ acc, d.short_name = []) →
      ∀ d ∈ replies.foldl LlrpDiscovery.probe_step acc, d.short_name = [] := by
  intro replies
  induction replies with
  | nil => intro acc h; exact h
  | cons r rest ih =>
    intro acc h
    rw [List.foldl_cons]
    apply ih
    intro d hd
    unfold LlrpDiscovery.probe_step at hd
    cases hp : LlrpDiscovery._parse_probe_reply r.1 with
    | none =>
      rw [hp] at hd
      exact h d hd
    | some x =>
      obtain ⟨cid, uid, hw, comp⟩ := x
      rw [hp] at hd
      dsimp only at hd
      by_cases ha : acc.any (fun d => decide (d.source_ip = r.2)) = true
      · rw [if_pos ha] at hd
        exact h d hd
      · rw [if_neg ha] at hd
        rcases List.mem_append.1 hd with hmem | hmem
        · exact h d hmem
        · rw [List.mem_singleton] at hmem
          rw [hmem]

/-- Helper: through the whole label phase every device keeps its source
IP, UID and component type; its `short_name` is only ever changed by an
effective (non-empty, IP-matching) label reply. -/
lemma llrp_label_phase_tracks :
    ∀ (replies : List (List ℕ × String))
      (devs : List LlrpDiscovery.LlrpDevice)
      (d : LlrpDiscovery.LlrpDevice), d ∈ devs →
      ∃ d' ∈ LlrpDiscovery.label_phase devs replies,
        d'.source_ip = d.source_ip ∧ d'.uid = d.uid ∧
        d'.component_type = d.component_type ∧
        ((∀ lr ∈ replies, ∀ label,
            LlrpDiscovery._parse_rdm_label_response lr.1 = some label →
            label = [] ∨ lr.2 ≠ d.source_ip) →
          d'.short_name = d.short_name) := by
  intro replies
  unfold LlrpDiscovery.label_phase
  induction replies with
  | nil =>
    intro devs d hd
    exact ⟨d, hd, rfl, rfl, rfl, fun _ => rfl⟩
  | cons r rest ih =>
    intro devs d hd
    rw [List.foldl_cons]
    rcases llrp_label_step_eq devs r with hstep | ⟨label, hp, hl, hstep⟩
    · rw [hstep]
      obtain ⟨d', hmem, h1, h2, h3, h4⟩ := ih devs d hd
      exact ⟨d', hmem, h1, h2, h3, fun hno =>
        h4 fun lr hlr lab hplab => hno lr (List.mem_cons_of_mem _ hlr) lab hplab⟩
    · rw [hstep]
      have hfd : ∀ x : LlrpDiscovery.LlrpDevice,
          ((fun d => if d.source_ip = r.2 then { d with short_name := label }
            else d) x).source_ip = x.source_ip ∧
          ((fun d => if d.source_ip = r.2 then { d with short_name := label }
            else d) x).uid = x.uid ∧
          ((fun d => if d.source_ip = r.2 then { d with short_name := label }
            else d) x).component_type = x.component_type := by
        intro x
        by_cases hx : x.source_ip = r.2 <;> simp [hx]
      obtain ⟨d', hmem, h1, h2, h3, h4⟩ :=
        ih _ _ (List.mem_map_of_mem (fun d =>
          if d.source_ip = r.2 then { d with short_name := label } else d) hd)
      refine ⟨d', hmem, h1.trans (hfd d).1, h2.trans (hfd d).2.1,
        h3.trans (hfd d).2.2, fun hno => ?_⟩
      have hr2 : r.2 ≠ d.source_ip := by
        rcases hno r (List.mem_cons_self _ _) label hp with h | h
        · exact absurd h hl
        · exact h
      have hid : (if d.source_ip = r.2 then { d with short_name := label }
          else d) = d := by
        rw [if_neg fun h => hr2 h.symm]
      have h4' := h4 fun lr hlr lab hplab => by
        rcases hno lr (List.mem_cons_of_mem _ hlr) lab hplab with h | h
        · exact Or.inl h
        · refine Or.inr ?_
          rw [(hfd d).1]
          exact h
      exact h4'.trans
        (congrArg LlrpDiscovery.LlrpDevice.short_name hid)

/-- C9: every responder recorded in the probe phase appears in the result
of `LlrpDiscovery.discover_devices` with its UID and component type, and
keeps an empty `short_name` when no effective label reply from its IP
arrives; and if the probe phase yields no devices, the label phase is
skipped and the empty list is returned. -/
theorem llrp_probe_responders_complete
    (probe_replies label_replies : List (List ℕ × String)) :
    (LlrpDiscovery.probe_phase probe_replies = [] →
      LlrpDiscovery.discover_devices probe_replies label_replies = []) ∧
    ∀ d ∈ LlrpDiscovery.probe_phase probe_replies,
      ∃ r ∈ LlrpDiscovery.discover_devices probe_replies label_replies,
        r.source_ip = d.source_ip ∧ r.uid = d.uid ∧
        r.component_type = d.component_type ∧
        ((∀ lr ∈ label_replies, ∀ label,
            LlrpDiscovery._parse_rdm_label_response lr.1 = some label →
            label = [] ∨ lr.2 ≠ d.source_ip) → r.short_name = []) := by
  constructor
  · intro h
    unfold LlrpDiscovery.discover_devices
    rw [if_pos h]
  · intro d hd
    have hne : LlrpDiscovery.probe_phase probe_replies ≠ [] := by
      intro h
      rw [h] at hd
      exact absurd hd (List.not_mem_nil d)
    have hsn : d.short_name = [] :=
      llrp_probe_phase_short_names probe_replies []
        (fun x hx => absurd hx (List.not_mem_nil x)) d hd
    unfold LlrpDiscovery.discover_devices
    rw [if_neg hne]
    obtain ⟨d', hmem, h1, h2, h3, h4⟩ :=
      llrp_label_phase_tracks label_replies
        (LlrpDiscovery.probe_phase probe_replies) d hd
    refine ⟨_, List.mem_map_of_mem (fun d =>
      ({ source_ip := d.source_ip, short_name := d.short_name,
         long_name := d.long_name, uid := d.uid,
         component_type := d.component_type } :
        LlrpDiscovery.LlrpResult)) hmem, h1, h2, h3, fun hno => ?_⟩
    show d'.short_name = []
    rw [h4 hno, hsn]

/-- C9 witness: a single concrete 83-byte probe reply from 10.0.0.9 with
no label replies yields exactly that device with an empty name, and an
empty probe phase yields the empty list. -/
theorem llrp_probe_responders_complete_witness :
    LlrpDiscovery.discover_devices [] [] = [] ∧
    ∃ r ∈ LlrpDiscovery.discover_devices
        [(List.replicate 19 0 ++ [0, 0, 0, 10] ++ List.replicate 19 0 ++
          [0, 0, 0, 2] ++ List.replicate 23 0 ++ [1] ++ [1, 2, 3, 4, 5, 6] ++
          List.replicate 6 0 ++ [7], "10.0.0.9")] [],
      r.source_ip = "10.0.0.9" ∧ r.uid = [1, 2, 3, 4, 5, 6] ∧
      r.short_name = [] := by
  constructor
  · exact (llrp_probe_responders_complete [] []).1 rfl
  · obtain ⟨r, hr, h1, h2, _h3, h4⟩ :=
      (llrp_probe_responders_complete
        [(List.replicate 19 0 ++ [0, 0, 0, 10] ++ List.replicate 19 0 ++
          [0, 0, 0, 2] ++ List.replicate 23 0 ++ [1] ++ [1, 2, 3, 4, 5, 6] ++
          List.replicate 6 0 ++ [7], "10.0.0.9")] []).2
        { source_ip := "10.0.0.9", short_name := [], long_name := [],
          uid := [1, 2, 3, 4, 5, 6], component_type := 7,
          target_cid := List.replicate 16 0,
          target_uid := [1, 2, 3, 4, 5, 6] }
        (by decide)
    refine ⟨r, hr, by rw [h1], by rw [h2], ?_⟩
    exact h4 fun lr hlr lab hplab => absurd hlr (List.not_mem_nil lr)

/-! ### C1: binary-search discovery correctness -/

/-- Membership in the responder set of a branch query. -/
lemma mem_respondersIn {bus muted : List ℕ} {lo hi u : ℕ} :
    u ∈ respondersIn bus muted lo hi ↔
      u ∈ bus ∧ lo ≤ u ∧ u ≤ hi ∧ u ∉ muted := by
  simp [respondersIn, List.mem_filter]

/-- Number of bus devices that are not muted. -/
def unmutedCount (bus muted : List ℕ) : ℕ :=
  (bus.filter fun u => decide (u ∉ muted)).length

/-- Muting more devices can only shrink the unmuted count. -/
lemma unmutedCount_le_of_subset {bus m1 m2 : List ℕ}
    (h : ∀ u ∈ m1, u ∈ m2) : unmutedCount bus m2 ≤ unmutedCount bus m1 :=
  (List.monotone_filter_right bus fun a ha => by
    simp only [decide_eq_true_eq] at ha ⊢
    exact fun hmem => ha (h a hmem)).length_le

/-- Muting an unmuted bus device strictly shrinks the unmuted count. -/
lemma unmutedCount_cons_lt {bus muted : List ℕ} {u : ℕ}
    (hu : u ∈ bus) (hm : u ∉ muted) :
    unmutedCount bus (u :: muted) < unmutedCount bus muted := by
  have hsub : (bus.filter fun x => decide (x ∉ u :: muted)).Sublist
      (bus.filter fun x => decide (x ∉ muted)) :=
    List.monotone_filter_right bus fun a ha => by
      simp only [decide_eq_true_eq, List.mem_cons] at ha ⊢
      exact fun h => ha (Or.inr h)
  by_contra hcon
  rw [Nat.not_lt] at hcon
  have heq := hsub.eq_of_length (Nat.le_antisymm hsub.length_le hcon)
  have hmem : u ∈ bus.filter (fun x => decide (x ∉ muted)) :=
    List.mem_filter.2 ⟨hu, by simp [hm]⟩
  rw [← heq] at hmem
  have := (List.mem_filter.1 hmem).2
  simp at this

/-- Fuel monotonicity: a search that completes with some fuel completes
identically with any larger fuel. -/
lemma binary_search_branch_mono (bus : List ℕ) :
    ∀ n m tn lo hi muted found r,
      binary_search_branch bus n tn lo hi muted found = some r → n ≤ m →
      binary_search_branch bus m tn lo hi muted found = some r := by
  intro n
  induction n with
  | zero =>
    intro m tn lo hi muted found r h _
    rw [binary_search_branch] at h
    exact absurd h (by simp)
  | succ n ih =>
    intro m tn lo hi muted found r h hnm
    obtain ⟨m', rfl⟩ : ∃ m', m = m' + 1 := ⟨m - 1, by omega⟩
    have hnm' : n ≤ m' := by omega
    rw [binary_search_branch] at h ⊢
    by_cases h1 : hi < lo
    · rw [if_pos h1] at h ⊢
      exact h
    · rw [if_neg h1] at h ⊢
      by_cases h2 : lo = hi
      · rw [if_pos h2] at h ⊢
        exact h
      · rw [if_neg h2] at h ⊢
        cases hresp : respondersIn bus muted lo hi with
        | nil =>
          rw [hresp] at h
          exact h
        | cons u tail =>
          cases tail with
          | nil =>
            rw [hresp] at h
            dsimp only at h ⊢
            by_cases hf : u ∈ found
            · rw [if_pos hf] at h ⊢
              exact ih _ _ _ _ _ _ _ h hnm'
            · rw [if_neg hf] at h ⊢
              exact ih _ _ _ _ _ _ _ h hnm'
          | cons v tail2 =>
            rw [hresp] at h
            dsimp only at h ⊢
            cases hrec : binary_search_branch bus n (tn + 1) lo
                ((lo + hi) / 2) muted found with
            | none =>
              rw [hrec] at h
              exact absurd h (by simp)
            | some res =>
              obtain ⟨tn1, m1, f1⟩ := res
              rw [hrec] at h
              dsimp only at h
              rw [ih _ _ _ _ _ _ _ hrec hnm']
              dsimp only
              exact ih _ _ _ _ _ _ _ h hnm'

/-- Main invariant lemma for `binary_search_branch` under the bus model:
given that the found list is exactly the muted bus devices, there is a
fuel with which the search over `[lo, hi]` terminates, the found list
stays duplicate-free and exactly tracks the muted bus devices, the muted
set grows by exactly the bus devices in the range, and the found list
grows by exactly the previously unmuted bus devices in the range. -/
lemma binary_search_branch_correct (bus : List ℕ) (hnd : bus.Nodup) :
    ∀ b tn lo hi muted found,
      unmutedCount bus muted + (hi + 1 - lo) ≤ b →
      (∀ u, u ∈ found ↔ u ∈ bus ∧ u ∈ muted) →
      found.Nodup →
      ∃ n tn1 m1 f1,
        binary_search_branch bus n tn lo hi muted found =
          some (tn1, m1, f1) ∧
        f1.Nodup ∧
        (∀ u, u ∈ f1 ↔ u ∈ bus ∧ u ∈ m1) ∧
        (∀ u, u ∈ m1 ↔ u ∈ muted ∨ (u ∈ bus ∧ lo ≤ u ∧ u ≤ hi)) ∧
        (∀ u, u ∈ f1 ↔ u ∈ found ∨
          (u ∈ bus ∧ lo ≤ u ∧ u ≤ hi ∧ u ∉ muted)) := by
  intro b
  induction b with
  | zero =>
    intro tn lo hi muted found hb hinv hnodup
    have hlt : hi < lo := by omega
    refine ⟨1, tn, muted, found, ?_, hnodup, hinv, ?_, ?_⟩
    · rw [binary_search_branch, if_pos hlt]
    · intro u
      constructor
      · exact Or.inl
      · rintro (h | ⟨_, h1, h2⟩)
        · exact h
        · omega
    · intro u
      constructor
      · exact Or.inl
      · rintro (h | ⟨_, h1, h2, _⟩)
        · exact h
        · omega
  | succ b ih =>
    intro tn lo hi muted found hb hinv hnodup
    by_cases hlt : hi < lo
    · refine ⟨1, tn, muted, found, ?_, hnodup, hinv, ?_, ?_⟩
      · rw [binary_search_branch, if_pos hlt]
      · intro u
        constructor
        · exact Or.inl
        · rintro (h | ⟨_, h1, h2⟩)
          · exact h
          · omega
      · intro u
        constructor
        · exact Or.inl
        · rintro (h | ⟨_, h1, h2, _⟩)
          · exact h
          · omega
    · by_cases heq : lo = hi
      · subst heq
        by_cases hbus : lo ∈ bus
        · by_cases hfound : lo ∈ found
          · refine ⟨1, tn + 1, lo :: muted, found, ?_, hnodup, ?_, ?_, ?_⟩
            · rw [binary_search_branch, if_neg (by omega), if_pos rfl,
                if_pos hbus, if_pos hfound]
            · intro u
              constructor
              · intro h
                obtain ⟨h1, h2⟩ := (hinv u).1 h
                exact ⟨h1, List.mem_cons_of_mem _ h2⟩
              · rintro ⟨h1, h2⟩
                rcases List.mem_cons.1 h2 with rfl | h2
                · exact hfound
                · exact (hinv u).2 ⟨h1, h2⟩
            · intro u
              constructor
              · intro h
                rcases List.mem_cons.1 h with rfl | h
                · exact Or.inr ⟨hbus, Nat.le_refl _, Nat.le_refl _⟩
                · exact Or.inl h
              · rintro (h | ⟨h1, h2, h3⟩)
                · exact List.mem_cons_of_mem _ h
                · have huv : u = lo := by omega
                  subst huv
                  exact List.mem_cons_self _ _
            · intro u
              constructor
              · exact Or.inl
              · rintro (h | ⟨h1, h2, h3, h4⟩)
                · exact h
                · have huv : u = lo := by omega
                  subst huv
                  exact absurd ((hinv u).1 hfound).2 h4
          · have hnm : lo ∉ muted := fun h => hfound ((hinv lo).2 ⟨hbus, h⟩)
            refine ⟨1, tn + 1, lo :: muted, found ++ [lo], ?_, ?_, ?_, ?_, ?_⟩
            · rw [binary_search_branch, if_neg (by omega), if_pos rfl,
                if_pos hbus, if_neg hfound]
            · simp [List.nodup_append, hnodup, hfound]
            · intro u
              constructor
              · intro h
                rcases List.mem_append.1 h with h | h
                · obtain ⟨h1, h2⟩ := (hinv u).1 h
                  exact ⟨h1, List.mem_cons_of_mem _ h2⟩
                · rw [List.mem_singleton] at h
                  subst h
                  exact ⟨hbus, List.mem_cons_self _ _⟩
              · rintro ⟨h1, h2⟩
                rcases List.mem_cons.1 h2 with rfl | h2
                · exact List.mem_append.2 (Or.inr (List.mem_singleton.2 rfl))
                · exact List.mem_append.2 (Or.inl ((hinv u).2 ⟨h1, h2⟩))
            · intro u
              constructor
              · intro h
                rcases List.mem_cons.1 h with rfl | h
                · exact Or.inr ⟨hbus, Nat.le_refl _, Nat.le_refl _⟩
                · exact Or.inl h
              · rintro (h | ⟨h1, h2, h3⟩)
                · exact List.mem_cons_of_mem _ h
                · have huv : u = lo := by omega
                  subst huv
                  exact List.mem_cons_self _ _
            · intro u
              constructor
              · intro h
                rcases List.mem_append.1 h with h | h
                · exact Or.inl h
                · rw [List.mem_singleton] at h
                  subst h
                  exact Or.inr ⟨hbus, Nat.le_refl _, Nat.le_refl _, hnm⟩
              · rintro (h | ⟨h1, h2, h3, h4⟩)
                · exact List.mem_append.2 (Or.inl h)
                · have huv : u = lo := by omega
                  subst huv
                  exact List.mem_append.2 (Or.inr (List.mem_singleton.2 rfl))
        · refine ⟨1, tn + 1, muted, found, ?_, hnodup, hinv, ?_, ?_⟩
          · rw [binary_search_branch, if_neg (by omega), if_pos rfl,
              if_neg hbus]
          · intro u
            constructor
            · exact Or.inl
            · rintro (h | ⟨h1, h2, h3⟩)
              · exact h
              · have huv : u = lo := by omega
                subst huv
                exact absurd h1 hbus
          · intro u
            constructor
            · exact Or.inl
            · rintro (h | ⟨h1, h2, h3, _⟩)
              · exact h
              · have huv : u = lo := by omega
                subst huv
                exact absurd h1 hbus
      · cases hresp : respondersIn bus muted lo hi with
        | nil =>
          have hempty : ∀ u, ¬(u ∈ bus ∧ lo ≤ u ∧ u ≤ hi ∧ u ∉ muted) := by
            intro u hu
            have hmem := mem_respondersIn.2 hu
            rw [hresp] at hmem
            exact absurd hmem (List.not_mem_nil u)
          refine ⟨1, tn + 1, muted, found, ?_, hnodup, hinv, ?_, ?_⟩
          · rw [binary_search_branch, if_neg (by omega), if_neg heq, hresp]
          · intro u
            constructor
            · exact Or.inl
            · rintro (h | ⟨h1, h2, h3⟩)
              · exact h
              · by_cases hm : u ∈ muted
                · exact hm
                · exact absurd ⟨h1, h2, h3, hm⟩ (hempty u)
          · intro u
            constructor
            · exact Or.inl
            · rintro (h | ⟨h1, h2, h3, h4⟩)
              · exact h
              · exact absurd ⟨h1, h2, h3, h4⟩ (hempty u)
        | cons u tail =>
          cases tail with
          | nil =>
            have humem : u ∈ respondersIn bus muted lo hi := by
              rw [hresp]
              exact List.mem_singleton.2 rfl
            obtain ⟨hub, hulo, huhi, hum⟩ := mem_respondersIn.1 humem
            have hufound : u ∉ found := fun h => hum ((hinv u).1 h).2
            have hcnt : unmutedCount bus (u :: muted) <
                unmutedCount bus muted := unmutedCount_cons_lt hub hum
            have hinv' : ∀ v, v ∈ found ++ [u] ↔ v ∈ bus ∧ v ∈ u :: muted := by
              intro v
              constructor
              · intro h
                rcases List.mem_append.1 h with h | h
                · obtain ⟨h1, h2⟩ := (hinv v).1 h
                  exact ⟨h1, List.mem_cons_of_mem _ h2⟩
                · rw [List.mem_singleton] at h
                  subst h
                  exact ⟨hub, List.mem_cons_self _ _⟩
              · rintro ⟨h1, h2⟩
                rcases List.mem_cons.1 h2 with rfl | h2
                · exact List.mem_append.2 (Or.inr (List.mem_singleton.2 rfl))
                · exact List.mem_append.2 (Or.inl ((hinv v).2 ⟨h1, h2⟩))
            obtain ⟨n, tn1, m1, f1, hrun, hnd1, hfm1, hm1, hf1⟩ :=
              ih (tn + 2) lo hi (u :: muted) (found ++ [u]) (by omega) hinv'
                (by simp [List.nodup_append, hnodup, hufound])
            refine ⟨n + 1, tn1, m1, f1, ?_, hnd1, hfm1, ?_, ?_⟩
            · rw [binary_search_branch, if_neg (by omega), if_neg heq, hresp]
              dsimp only
              rw [if_neg hufound]
              exact hrun
            · intro v
              rw [hm1 v]
              constructor
              · rintro (h | h)
                · rcases List.mem_cons.1 h with rfl | h
                  · exact Or.inr ⟨hub, hulo, huhi⟩
                  · exact Or.inl h
                · exact Or.inr h
              · rintro (h | h)
                · exact Or.inl (List.mem_cons_of_mem _ h)
                · exact Or.inr h
            · intro v
              rw [hf1 v]
              constructor
              · rintro (h | ⟨h1, h2, h3, h4⟩)
                · rcases List.mem_append.1 h with h | h
                  · exact Or.inl h
                  · rw [List.mem_singleton] at h
                    subst h
                    exact Or.inr ⟨hub, hulo, huhi, hum⟩
                · exact Or.inr ⟨h1, h2, h3,
                    fun hm => h4 (List.mem_cons_of_mem _ hm)⟩
              · rintro (h | ⟨h1, h2, h3, h4⟩)
                · exact Or.inl (List.mem_append.2 (Or.inl h))
                · by_cases hvu : v = u
                  · subst hvu
                    exact Or.inl (List.mem_append.2
                      (Or.inr (List.mem_singleton.2 rfl)))
                  · refine Or.inr ⟨h1, h2, h3, fun hm => ?_⟩
                    rcases List.mem_cons.1 hm with h | h
                    · exact hvu h
                    · exact h4 h
          | cons v tail2 =>
            have hmid1 : lo ≤ (lo + hi) / 2 := by omega
            have hmid2 : (lo + hi) / 2 < hi := by omega
            obtain ⟨n1, tnA, mA, fA, hrunA, hndA, hfmA, hmA, hfA⟩ :=
              ih (tn + 1) lo ((lo + hi) / 2) muted found (by omega) hinv
                hnodup
            have hmutedA : ∀ x ∈ muted, x ∈ mA := fun x hx =>
              (hmA x).2 (Or.inl hx)
            have hcntA : unmutedCount bus mA ≤ unmutedCount bus muted :=
              unmutedCount_le_of_subset hmutedA
            obtain ⟨n2, tnB, mB, fB, hrunB, hndB, hfmB, hmB, hfB⟩ :=
              ih tnA ((lo + hi) / 2 + 1) hi mA fA (by omega) hfmA hndA
            refine ⟨max n1 n2 + 1, tnB, mB, fB, ?_, hndB, hfmB, ?_, ?_⟩
            · rw [binary_search_branch, if_neg (by omega), if_neg heq, hresp]
              dsimp only
              rw [binary_search_branch_mono bus n1 (max n1 n2) _ _ _ _ _ _
                hrunA (Nat.le_max_left _ _)]
              dsimp only
              exact binary_search_branch_mono bus n2 (max n1 n2) _ _ _ _ _ _
                hrunB (Nat.le_max_right _ _)
            · intro w
              rw [hmB w]
              constructor
              · rintro (h | ⟨h1, h2, h3⟩)
                · rcases (hmA w).1 h with h | ⟨h1, h2, h3⟩
                  · exact Or.inl h
                  · exact Or.inr ⟨h1, h2, by omega⟩
                · exact Or.inr ⟨h1, by omega, h3⟩
              · rintro (h | ⟨h1, h2, h3⟩)
                · exact Or.inl ((hmA w).2 (Or.inl h))
                · by_cases hw : w ≤ (lo + hi) / 2
                  · exact Or.inl ((hmA w).2 (Or.inr ⟨h1, h2, hw⟩))
                  · exact Or.inr ⟨h1, by omega, h3⟩
            · intro w
              rw [hfB w]
              constructor
              · rintro (h | ⟨h1, h2, h3, h4⟩)
                · rcases (hfA w).1 h with h | ⟨h1, h2, h3, h4⟩
                  · exact Or.inl h
                  · exact Or.inr ⟨h1, h2, by omega, h4⟩
                · exact Or.inr ⟨h1, by omega, h3,
                    fun hm => h4 ((hmA w).2 (Or.inl hm))⟩
              · rintro (h | ⟨h1, h2, h3, h4⟩)
                · exact Or.inl ((hfA w).2 (Or.inl h))
                · by_cases hw : w ≤ (lo + hi) / 2
                  · exact Or.inl ((hfA w).2 (Or.inr ⟨h1, h2, hw, h4⟩))
                  · refine Or.inr ⟨h1, by omega, h3, fun hm => ?_⟩
                    rcases (hmA w).1 hm with h | ⟨_, _, hcontra⟩
                    · exact h4 h
                    · omega

/-- C1: with a duplicate-free set of bus UIDs below 2^48 and under the
bus model (collision on two or more unmuted responders, clean reply on
exactly one, silence on none, ACK-and-mute on a direct mute of an
existing UID), `discover_all_devices` terminates and returns exactly the
set of bus UIDs, each exactly once, regardless of their numeric
ordering. -/
theorem discover_all_devices_correct (bus : List ℕ) (hnd : bus.Nodup)
    (hbound : ∀ u ∈ bus, u < 2 ^ 48) (tn : ℕ) :
    ∃ fuel found tn1, discover_all_devices bus tn fuel = some (found, tn1) ∧
      found.Nodup ∧ ∀ u, u ∈ found ↔ u ∈ bus := by
  obtain ⟨n, tnx, m1, f1, hrun, hnd1, _, _, hf1⟩ :=
    binary_search_branch_correct bus hnd (unmutedCount bus [] + 2 ^ 48)
      (tn + 1) 0 0xFFFFFFFFFFFF [] [] (by norm_num) (by simp) List.nodup_nil
  refine ⟨n, f1, if f1 = [] then tnx else tnx + 1, ?_, hnd1, ?_⟩
  · unfold discover_all_devices
    rw [hrun]
  · intro u
    rw [hf1 u]
    constructor
    · rintro (h | ⟨h1, _, _, _⟩)
      · exact absurd h (List.not_mem_nil u)
      · exact h1
    · intro h
      refine Or.inr ⟨h, Nat.zero_le u, ?_, List.not_mem_nil u⟩
      have hu := hbound u h
      have hpow : (2 : ℕ) ^ 48 = 281474976710656 := by norm_num
      omega

/-- C1 witness: the bus `{5, 2, 9}` (listed out of numeric order) is
discovered exactly, each UID once. -/
theorem discover_all_devices_correct_witness :
    List.Nodup [5, 2, 9] ∧ (∀ u ∈ [5, 2, 9], u < 2 ^ 48) ∧
    ∃ fuel found tn1,
      discover_all_devices [5, 2, 9] 0 fuel = some (found, tn1) ∧
      found.Nodup ∧ ∀ u, u ∈ found ↔ u ∈ [5, 2, 9] :=
  ⟨by decide, by decide,
    discover_all_devices_correct [5, 2, 9] (by decide) (by decide) 0⟩

end PollToMVR
